import Mathlib

/-!
Verification of the compound-pattern engine of the UpToDate repository
(`config.go`): tokenizer, recursive-descent parser and tree evaluator for
the boolean pattern language (`AND`/`OR`, parentheses, quoted literals,
`string:`/`regex:` typed leaves).

Strings are modelled as `List Char`; the Go code indexes bytes, and all
pattern syntax that the code treats specially is ASCII, where the two
views agree.  Go's `(value, error)` returns are modelled as `Except` for
the parser (the non-error component of an error return is always
discarded by callers) and as the literal triple
`Bool × List Str × Option EvalError` for the evaluator (whose error
returns carry a meaningful `false, nil` payload).  General recursion that
Go expresses with index loops is modelled with an explicit fuel
parameter; fuel is always sufficient on the concrete inputs evaluated
below, and theorems about arbitrary inputs are conditioned on a
successful (non-fuel-exhausted) result.
-/

abbrev Str := List Char

/-- Shorthand turning a Lean string literal into the `List Char` model. -/
def str (s : String) : Str := s.toList

/-- Whitespace as `strings.TrimSpace` treats it (`unicode.IsSpace`),
restricted to the Latin-1 range. -/
def isSpaceGo (c : Char) : Bool :=
  c = ' ' || c = '\t' || c = '\n' || c = '\x0B' || c = '\x0C' || c = '\r' ||
  c = '\u0085' || c = ' '

/-- Model of `strings.TrimSpace`. -/
def trimSpace (s : Str) : Str :=
  ((s.dropWhile isSpaceGo).reverse.dropWhile isSpaceGo).reverse

/-- Model of `strings.ToLower` (ASCII; the type keywords compared against are
ASCII). -/
def toLowerStr (s : Str) : Str := s.map Char.toLower

/-- Model of `strings.ToUpper` (ASCII; the operators compared against are
ASCII). -/
def toUpperStr (s : Str) : Str := s.map Char.toUpper

/-- Does `s` start with `p`?  Model of the prefix test underlying
`strings.Contains`. -/
def startsWithStr : Str → Str → Bool
  | _, [] => true
  | [], _ :: _ => false
  | c :: cs, p :: ps => c = p && startsWithStr cs ps

/-- Model of `strings.Contains content pattern`. -/
def containsStr : Str → Str → Bool
  | [], p => startsWithStr [] p
  | c :: rest, p => startsWithStr (c :: rest) p || containsStr rest p

/-- Model of `strings.Index pattern ":"` restricted to a single character:
index of the first occurrence, `none` for Go's `-1`. -/
def indexOfChar : Str → Char → Option Nat
  | [], _ => none
  | c :: rest, target =>
    if c = target then some 0
    else
      match indexOfChar rest target with
      | some i => some (i + 1)
      | none => none

/-- Token of the pattern lexer (`Token` in config.go).  The Go field `Type`
is called `typ` here because `Type` is reserved in Lean. -/
structure Token where
  typ : Str
  value : Str
deriving DecidableEq, Repr

/-- The break tests of the leaf-scanning inner loop of `tokenizePattern`,
applied at the current position (`char` is the head): an unquoted
parenthesis, or an upcoming `" AND"`/`"AND "`/`" OR"`/`"OR "`. -/
def leafBreak : Str → Bool
  | [] => false
  | c :: rest =>
    c = '(' || c = ')' ||
    decide ((c :: rest).take 4 = str " AND") || decide ((c :: rest).take 4 = str "AND ") ||
    decide ((c :: rest).take 3 = str " OR") || decide ((c :: rest).take 3 = str "OR ")

/-- The inner loop of `tokenizePattern`: scans a leaf span from the current
position, tracking quote state (`inQuotes`, `quoteChar`; `none` models Go's
`byte(0)`), stopping outside quotes at a parenthesis or an upcoming
operator.  Returns the scanned span and the rest of the input. -/
def scanLeaf : Str → Bool → Option Char → Str × Str
  | [], _, _ => ([], [])
  | c :: rest, inQuotes, quoteChar =>
    if (c = '"' ∨ c = '\'') ∧ quoteChar = none then
      let (v, r) := scanLeaf rest true (some c)
      (c :: v, r)
    else if some c = quoteChar ∧ inQuotes then
      let (v, r) := scanLeaf rest false none
      (c :: v, r)
    else if !inQuotes ∧ leafBreak (c :: rest) then
      ([], c :: rest)
    else
      let (v, r) := scanLeaf rest inQuotes quoteChar
      (c :: v, r)

/-- The outer loop of `tokenizePattern`, with fuel standing in for the index
loop (every Go iteration consumes at least one character, so
`length + 1` fuel, supplied by `tokenizePattern`, never runs out).  The
first two operator tests reproduce the source's `" AND"` / `" OR"`
lookaheads verbatim, including their end-of-input disjunct, although the
preceding whitespace skip makes them unreachable. -/
def tokenizeLoop : Nat → Str → List Token
  | 0, _ => []
  | _ + 1, [] => []
  | fuel + 1, c :: rest =>
    if c = ' ' ∨ c = '\t' then tokenizeLoop fuel rest
    else if c = '(' then { typ := str "LPAREN", value := str "(" } :: tokenizeLoop fuel rest
    else if c = ')' then { typ := str "RPAREN", value := str ")" } :: tokenizeLoop fuel rest
    else if (c :: rest).take 4 = str " AND" ∧
        ((c :: rest).length ≤ 4 ∨ (c :: rest).get? 4 = some ' ') then
      { typ := str "AND", value := str "AND" } :: tokenizeLoop fuel ((c :: rest).drop 4)
    else if (c :: rest).take 3 = str " OR" ∧
        ((c :: rest).length ≤ 3 ∨ (c :: rest).get? 3 = some ' ') then
      { typ := str "OR", value := str "OR" } :: tokenizeLoop fuel ((c :: rest).drop 3)
    else if (c :: rest).take 4 = str "AND " then
      { typ := str "AND", value := str "AND" } :: tokenizeLoop fuel ((c :: rest).drop 4)
    else if (c :: rest).take 3 = str "OR " then
      { typ := str "OR", value := str "OR" } :: tokenizeLoop fuel ((c :: rest).drop 3)
    else
      let (v, r) := scanLeaf (c :: rest) false none
      let value := trimSpace v
      if value ≠ [] then { typ := str "PATTERN", value := value } :: tokenizeLoop fuel r
      else tokenizeLoop fuel r

/-- Model of `tokenizePattern` (config.go).  The Go function also returns an
`error` that is always `nil`, so the error component is omitted. -/
def tokenizePattern (pattern : Str) : List Token :=
  tokenizeLoop (pattern.length + 1) pattern

mutual
/-- Model of `CompoundPattern` (config.go): operator (`"AND"`/`"OR"`) and the
list of element patterns. -/
inductive CompoundPattern : Type where
  | mk : Str → List PatternElement → CompoundPattern
deriving Repr
/-- Model of `PatternElement` (config.go): `Type` field (called `typ`),
`Pattern` field, and the `Compound` pointer modelled as an `Option`
(`none` is Go's `nil`). -/
inductive PatternElement : Type where
  | mk : Str → Str → Option CompoundPattern → PatternElement
deriving Repr
end

/-- The `Operator` field accessor. -/
def CompoundPattern.Operator : CompoundPattern → Str
  | .mk op _ => op

/-- The `Patterns` field accessor. -/
def CompoundPattern.Patterns : CompoundPattern → List PatternElement
  | .mk _ ps => ps

/-- The `Type` field accessor. -/
def PatternElement.typ : PatternElement → Str
  | .mk ty _ _ => ty

/-- The `Pattern` field accessor. -/
def PatternElement.pattern : PatternElement → Str
  | .mk _ p _ => p

/-- The `Compound` field accessor. -/
def PatternElement.compound : PatternElement → Option CompoundPattern
  | .mk _ _ c => c

/-- Parse errors, one constructor per `fmt.Errorf` site in the parsing code
of config.go, plus `fuelExhausted` for the fuel model of the recursion
(no Go execution maps to it). -/
inductive ParseError : Type where
  | emptyPattern : ParseError
  | noTokens : ParseError
  | unexpectedEndOfInput : ParseError
  | expectedClosingParen : ParseError
  | unexpectedTokenType : Str → ParseError
  | emptyPatternElement : ParseError
  | emptyPatternValue : ParseError
  | fuelExhausted : ParseError
deriving DecidableEq, Repr

/-- Model of `parsePatternElement` (config.go): optional `string:`/`regex:`
type prefix, then verbatim stripping of a surrounding matching pair of
double or single quotes; every fall-through returns the trimmed text as a
`string` leaf.  The emptiness test of the pattern value happens before
quote stripping, exactly as in the source. -/
def parsePatternElement (pattern0 : Str) : Except ParseError PatternElement :=
  let pattern := trimSpace pattern0
  if pattern = [] then .error .emptyPatternElement
  else
    match indexOfChar pattern ':' with
    | some colonIndex =>
      if 0 < colonIndex ∧ colonIndex < pattern.length - 1 then
        let possibleType := toLowerStr (trimSpace (pattern.take colonIndex))
        if possibleType = str "string" ∨ possibleType = str "regex" then
          let patternValue := trimSpace (pattern.drop (colonIndex + 1))
          if patternValue = [] then .error .emptyPatternValue
          else
            let patternValue :=
              if 2 ≤ patternValue.length then
                match patternValue.head?, patternValue.getLast? with
                | some firstChar, some lastChar =>
                  if (firstChar = '"' ∧ lastChar = '"') ∨ (firstChar = '\'' ∧ lastChar = '\'')
                  then (patternValue.drop 1).dropLast
                  else patternValue
                | _, _ => patternValue
              else patternValue
            .ok (.mk possibleType patternValue none)
        else .ok (.mk (str "string") pattern none)
      else .ok (.mk (str "string") pattern none)
    | none => .ok (.mk (str "string") pattern none)

mutual
/-- Model of `parseOrExpression` (config.go): one `AndExpr`, then a loop
consuming `OR AndExpr`; a single operand is returned unwrapped.  The
position component of Go's error returns is discarded by every caller, so
errors carry no position. -/
def parseOrExpression : Nat → List Token → Nat → Except ParseError (CompoundPattern × Nat)
  | 0, _, _ => .error .fuelExhausted
  | fuel + 1, tokens, pos =>
    match parseAndExpression fuel tokens pos with
    | .error e => .error e
    | .ok (left, newPos) =>
      match parseOrLoop fuel tokens newPos [PatternElement.mk (str "compound") [] (some left)] with
      | .error e => .error e
      | .ok (elements, finalPos) =>
        if elements.length = 1 then .ok (left, finalPos)
        else .ok (.mk (str "OR") elements, finalPos)
termination_by structural fuel _ _ => fuel

/-- The `for tokens[newPos].Type == "OR"` loop of `parseOrExpression`. -/
def parseOrLoop : Nat → List Token → Nat → List PatternElement →
    Except ParseError (List PatternElement × Nat)
  | 0, _, _, _ => .error .fuelExhausted
  | fuel + 1, tokens, pos, elements =>
    match tokens.get? pos with
    | some tok =>
      if tok.typ = str "OR" then
        match parseAndExpression fuel tokens (pos + 1) with
        | .error e => .error e
        | .ok (right, nextPos) =>
          parseOrLoop fuel tokens nextPos
            (elements ++ [PatternElement.mk (str "compound") [] (some right)])
      else .ok (elements, pos)
    | none => .ok (elements, pos)
termination_by structural fuel _ _ _ => fuel

/-- Model of `parseAndExpression` (config.go), precedence above OR. -/
def parseAndExpression : Nat → List Token → Nat → Except ParseError (CompoundPattern × Nat)
  | 0, _, _ => .error .fuelExhausted
  | fuel + 1, tokens, pos =>
    match parsePrimary fuel tokens pos with
    | .error e => .error e
    | .ok (left, newPos) =>
      match parseAndLoop fuel tokens newPos [PatternElement.mk (str "compound") [] (some left)] with
      | .error e => .error e
      | .ok (elements, finalPos) =>
        if elements.length = 1 then .ok (left, finalPos)
        else .ok (.mk (str "AND") elements, finalPos)
termination_by structural fuel _ _ => fuel

/-- The `for tokens[newPos].Type == "AND"` loop of `parseAndExpression`. -/
def parseAndLoop : Nat → List Token → Nat → List PatternElement →
    Except ParseError (List PatternElement × Nat)
  | 0, _, _, _ => .error .fuelExhausted
  | fuel + 1, tokens, pos, elements =>
    match tokens.get? pos with
    | some tok =>
      if tok.typ = str "AND" then
        match parsePrimary fuel tokens (pos + 1) with
        | .error e => .error e
        | .ok (right, nextPos) =>
          parseAndLoop fuel tokens nextPos
            (elements ++ [PatternElement.mk (str "compound") [] (some right)])
      else .ok (elements, pos)
    | none => .ok (elements, pos)
termination_by structural fuel _ _ _ => fuel

/-- Model of `parsePrimary` (config.go): parenthesised sub-expression or a
single `PATTERN` token wrapped in a one-element `AND` compound. -/
def parsePrimary : Nat → List Token → Nat → Except ParseError (CompoundPattern × Nat)
  | 0, _, _ => .error .fuelExhausted
  | fuel + 1, tokens, pos =>
    match tokens.get? pos with
    | none => .error .unexpectedEndOfInput
    | some token =>
      if token.typ = str "LPAREN" then
        match parseOrExpression fuel tokens (pos + 1) with
        | .error e => .error e
        | .ok (compound, newPos) =>
          match tokens.get? newPos with
          | some tok2 =>
            if tok2.typ = str "RPAREN" then .ok (compound, newPos + 1)
            else .error .expectedClosingParen
          | none => .error .expectedClosingParen
      else if token.typ = str "PATTERN" then
        match parsePatternElement token.value with
        | .error e => .error e
        | .ok element => .ok (.mk (str "AND") [element], pos + 1)
      else .error (.unexpectedTokenType token.typ)
termination_by structural fuel _ _ => fuel
end

/-- Fuel supplied to the recursive-descent parser.  Each parser call passes
`fuel - 1` downward and every grammar production consumes at least one
token, so a small multiple of the token count suffices; theorems about
arbitrary inputs only assume a successful (non-`fuelExhausted`) parse. -/
def parserFuel (tokens : List Token) : Nat := tokens.length * 4 + 8

/-- Model of `parseTokens` (config.go).  Note that the final position
returned by `parseOrExpression` is discarded without checking that all
tokens were consumed, exactly as in the source. -/
def parseTokens (tokens : List Token) : Except ParseError CompoundPattern :=
  if tokens.length = 0 then .error .noTokens
  else
    match parseOrExpression (parserFuel tokens) tokens 0 with
    | .error e => .error e
    | .ok (compound, _) => .ok compound

/-- Model of `ParseCompoundPattern` (config.go): trim, reject empty,
tokenize, parse.  The tokenizer's error is always `nil` in the source, so
the tokenization-error wrapper is unreachable and omitted. -/
def ParseCompoundPattern (pattern0 : Str) : Except ParseError CompoundPattern :=
  let pattern := trimSpace pattern0
  if pattern = [] then .error .emptyPattern
  else parseTokens (tokenizePattern pattern)

namespace Re

/-- Modelled from the spec: Go's standard-library `regexp` engine is not part
of the repository, so the subset of it that the pattern language's
documented examples exercise is modelled here from the spec's description
(leftmost, non-overlapping, first-match scanning).  An atom is a literal
character (possibly backslash-escaped), the wildcard dot, or a character
class of ranges with optional negation. -/
inductive Atom : Type where
  | lit : Char → Atom
  | any : Atom
  | cls : Bool → List (Char × Char) → Atom
deriving DecidableEq, Repr

/-- Quantifier on an atom: exactly one, `*`, `+`, `?`, or `{n}`. -/
inductive Quant : Type where
  | one : Quant
  | star : Quant
  | plus : Quant
  | opt : Quant
  | exactly : Nat → Quant
deriving DecidableEq, Repr

/-- A compiled regular expression: a sequence of quantified atoms. -/
abbrev Regex := List (Atom × Quant)

/-- Items of a character class up to the closing `]`; `none` on an
unterminated class (as in the spec's invalid-pattern example `[`). -/
def parseClassItems : Nat → Str → Option (List (Char × Char) × Str)
  | 0, _ => none
  | _ + 1, [] => none
  | _ + 1, ']' :: rest => some ([], rest)
  | fuel + 1, c :: rest =>
    match rest with
    | '-' :: d :: rest2 =>
      if d = ']' then some ([(c, c), ('-', '-')], rest2)
      else
        match parseClassItems fuel rest2 with
        | some (items, r) => some ((c, d) :: items, r)
        | none => none
    | _ =>
      match parseClassItems fuel rest with
      | some (items, r) => some ((c, c) :: items, r)
      | none => none

/-- A character class `[...]`, with optional leading negation `^`. -/
def parseClass (fuel : Nat) (l : Str) : Option (Atom × Str) :=
  match l with
  | '^' :: rest => (parseClassItems fuel rest).map fun (items, r) => (Atom.cls true items, r)
  | _ => (parseClassItems fuel l).map fun (items, r) => (Atom.cls false items, r)

/-- An optional postfix quantifier; `{` must be followed by digits and `}`
(the `{n,m}` forms are outside the modelled subset and fail). -/
def parseQuant : Str → Option (Quant × Str)
  | '+' :: r => some (.plus, r)
  | '*' :: r => some (.star, r)
  | '?' :: r => some (.opt, r)
  | '{' :: r =>
    let digits := r.takeWhile Char.isDigit
    if digits = [] then none
    else
      match r.dropWhile Char.isDigit with
      | '}' :: r2 =>
        some (.exactly (digits.foldl (fun n c => n * 10 + (c.toNat - 48)) 0), r2)
      | _ => none
  | r => some (.one, r)

/-- Compilation loop: one atom with its quantifier per step.  Constructs
outside the modelled subset (groups, alternation, anchors, a dangling
quantifier or backslash) compile to `none`, as does an unterminated
class. -/
def compileLoop : Nat → Str → Option Regex
  | 0, _ => none
  | _ + 1, [] => some []
  | fuel + 1, '\\' :: rest =>
    match rest with
    | [] => none
    | e :: rest2 =>
      match parseQuant rest2 with
      | some (q, r) =>
        match compileLoop fuel r with
        | some ps => some ((Atom.lit e, q) :: ps)
        | none => none
      | none => none
  | fuel + 1, '[' :: rest =>
    match parseClass fuel rest with
    | some (atom, r) =>
      match parseQuant r with
      | some (q, r2) =>
        match compileLoop fuel r2 with
        | some ps => some ((atom, q) :: ps)
        | none => none
      | none => none
    | none => none
  | fuel + 1, '.' :: rest =>
    match parseQuant rest with
    | some (q, r) =>
      match compileLoop fuel r with
      | some ps => some ((Atom.any, q) :: ps)
      | none => none
    | none => none
  | fuel + 1, c :: rest =>
    if c = '+' ∨ c = '*' ∨ c = '?' ∨ c = '{' ∨ c = '}' ∨ c = '(' ∨ c = ')' ∨
        c = '|' ∨ c = '^' ∨ c = '$' then none
    else
      match parseQuant rest with
      | some (q, r) =>
        match compileLoop fuel r with
        | some ps => some ((Atom.lit c, q) :: ps)
        | none => none
      | none => none

/-- Model of `regexp.Compile`: `none` is a compilation error. -/
def compile (pat : Str) : Option Regex := compileLoop (pat.length + 1) pat

/-- Does the atom match one character? -/
def atomMatches (a : Atom) (c : Char) : Bool :=
  match a with
  | .lit d => c = d
  | .any => true
  | .cls neg items =>
    let inSet := items.any fun (lo, hi) => decide (lo ≤ c) && decide (c ≤ hi)
    if neg then !inSet else inSet

/-- Length of the longest run of characters matching the atom at the front
of the input (what a greedy quantifier consumes first). -/
def countAtom (a : Atom) : Str → Nat
  | [] => 0
  | c :: rest => if atomMatches a c then countAtom a rest + 1 else 0

mutual
/-- Backtracking matcher at the current position, first-match semantics:
greedy quantifiers try the longest repetition first and back off until
the remaining pieces match.  Returns the number of characters consumed by
the first successful alternative, `none` when no alternative matches.
The fuel argument dominates the backtracking depth; `matchFuel` below
always supplies enough for the concrete evaluations in this file. -/
def matchSeq : Nat → Regex → Str → Option Nat
  | 0, _, _ => none
  | _ + 1, [], _ => some 0
  | fuel + 1, (a, .one) :: ps, s =>
    match s with
    | [] => none
    | c :: rest =>
      if atomMatches a c then (matchSeq fuel ps rest).map (· + 1) else none
  | fuel + 1, (a, .opt) :: ps, s =>
    match s with
    | [] => matchSeq fuel ps []
    | c :: rest =>
      if atomMatches a c then
        match matchSeq fuel ps rest with
        | some n => some (n + 1)
        | none => matchSeq fuel ps (c :: rest)
      else matchSeq fuel ps (c :: rest)
  | fuel + 1, (a, .exactly n) :: ps, s => matchExact fuel a n ps s
  | fuel + 1, (a, .plus) :: ps, s =>
    match s with
    | [] => none
    | c :: rest =>
      if atomMatches a c then (matchStar fuel a ps rest (countAtom a rest)).map (· + 1)
      else none
  | fuel + 1, (a, .star) :: ps, s => matchStar fuel a ps s (countAtom a s)
termination_by structural fuel _ _ => fuel

/-- Greedy star: try `k` repetitions, backing off one at a time. -/
def matchStar : Nat → Atom → Regex → Str → Nat → Option Nat
  | 0, _, _, _, _ => none
  | fuel + 1, a, ps, s, k =>
    match matchSeq fuel ps (s.drop k) with
    | some n => some (k + n)
    | none =>
      match k with
      | 0 => none
      | k' + 1 => matchStar fuel a ps s k'
termination_by structural fuel _ _ _ _ => fuel

/-- Exactly `n` repetitions of the atom, then the remaining pieces. -/
def matchExact : Nat → Atom → Nat → Regex → Str → Option Nat
  | 0, _, _, _, _ => none
  | fuel + 1, _, 0, ps, s => matchSeq fuel ps s
  | _ + 1, _, _ + 1, _, [] => none
  | fuel + 1, a, n + 1, ps, c :: rest =>
    if atomMatches a c then (matchExact fuel a n ps rest).map (· + 1) else none
termination_by structural fuel _ _ _ _ => fuel
end

/-- Fuel for one `matchSeq` attempt: generous bound on the call depth of the
backtracking search for the patterns evaluated in this file. -/
def matchFuel (ps : Regex) (s : Str) : Nat :=
  (s.length + 2) * (ps.length + 2) + 8

/-- Scanning loop of `FindAllString`: at each position try a match; on
success emit it and continue after it (one character forward for an empty
match), otherwise move one character forward. -/
def findAllLoop : Nat → Regex → Str → List Str
  | 0, _, _ => []
  | fuel + 1, re, s =>
    match matchSeq (matchFuel re s) re s with
    | some n =>
      if n = 0 then
        match s with
        | [] => [[]]
        | _ :: rest => [] :: findAllLoop fuel re rest
      else s.take n :: findAllLoop fuel re (s.drop n)
    | none =>
      match s with
      | [] => []
      | _ :: rest => findAllLoop fuel re rest

/-- Model of `re.FindAllString content -1`: all non-overlapping matches,
scanning left to right. -/
def findAllString (re : Regex) (s : Str) : List Str :=
  findAllLoop (s.length + 1) re s

end Re

/-- Evaluation errors, one constructor per `fmt.Errorf` site in the
evaluation code of config.go; `elementError` is the per-child wrapper
`"error evaluating pattern element %d: %w"` with its 1-based index. -/
inductive EvalError : Type where
  | nilCompoundPattern : EvalError
  | elementError : Nat → EvalError → EvalError
  | unsupportedOperator : Str → EvalError
  | invalidRegexPattern : Str → EvalError
  | nilNestedCompound : EvalError
  | unsupportedElementType : Str → EvalError
deriving DecidableEq, Repr

/-- The evaluator's result triple `(bool, []string, error)`, kept as a
literal triple because Go's error returns carry a meaningful
`false, nil` payload. -/
abbrev EvalResult := Bool × List Str × Option EvalError

/-- The source's `finalResult` loop for `"AND"`: `true` unless some entry is
`false` (the loop `break` only short-circuits this boolean fold; every
child was already evaluated). -/
def allTrue : List Bool → Bool
  | [] => true
  | b :: rest => if !b then false else allTrue rest

/-- The source's `finalResult` loop for `"OR"`: `false` unless some entry is
`true`. -/
def anyTrue : List Bool → Bool
  | [] => false
  | b :: rest => if b then true else anyTrue rest

mutual
/-- Model of `EvaluateCompoundPattern` (config.go): nil check, evaluation of
every element in order (collecting each verdict and concatenating every
element's matches), then the `AND`/`OR` combination of the verdicts on
`strings.ToUpper` of the operator. -/
def EvaluateCompoundPattern : Option CompoundPattern → Str → EvalResult
  | none, _ => (false, [], some .nilCompoundPattern)
  | some (.mk op elems), content =>
    match evalPatternsLoop elems content 0 with
    | .error (idx, e) => (false, [], some (.elementError idx e))
    | .ok (results, allMatches) =>
      if toUpperStr op = str "AND" then (allTrue results, allMatches, none)
      else if toUpperStr op = str "OR" then (anyTrue results, allMatches, none)
      else (false, [], some (.unsupportedOperator op))

/-- The `for i, element := range compound.Patterns` loop of
`EvaluateCompoundPattern`: `i` is the 0-based index of the head; a child
error aborts with the child's 1-based index. -/
def evalPatternsLoop : List PatternElement → Str → Nat →
    Except (Nat × EvalError) (List Bool × List Str)
  | [], _, _ => .ok ([], [])
  | el :: rest, content, i =>
    match evaluatePatternElement el content with
    | (_, _, some e) => .error (i + 1, e)
    | (found, ms, none) =>
      match evalPatternsLoop rest content (i + 1) with
      | .error p => .error p
      | .ok (results, restMs) => .ok (found :: results, ms ++ restMs)

/-- Model of `evaluatePatternElement` (config.go): substring containment for
`string` leaves, compile-and-find-all for `regex` leaves, recursion for
`compound` elements (with the source's nil check), and the defensive
default for any other type. -/
def evaluatePatternElement : PatternElement → Str → EvalResult
  | .mk ty pat comp, content =>
    if ty = str "string" then
      let found := containsStr content pat
      (found, if found then [pat] else [], none)
    else if ty = str "regex" then
      match Re.compile pat with
      | none => (false, [], some (.invalidRegexPattern pat))
      | some re =>
        let ms := Re.findAllString re content
        (decide (0 < ms.length), ms, none)
    else if ty = str "compound" then
      match comp with
      | none => (false, [], some .nilNestedCompound)
      | some c => EvaluateCompoundPattern (some c) content
    else (false, [], some (.unsupportedElementType ty))
termination_by structural oc _ => oc
end

mutual
/-- Do all compounds reachable from this compound, itself included, have at
least one child?  (The structural invariant of C8.) -/
def compoundsOK : CompoundPattern → Bool
  | .mk _ elems => !elems.isEmpty && elemsOK elems

/-- List form of `compoundsOK` over elements. -/
def elemsOK : List PatternElement → Bool
  | [] => true
  | el :: rest => elemOK el && elemsOK rest

/-- Compounds nested in this element have at least one child. -/
def elemOK : PatternElement → Bool
  | .mk _ _ none => true
  | .mk _ _ (some c) => compoundsOK c
end

mutual
/-- Well-formedness as the parser guarantees it: operators are exactly
`"AND"`/`"OR"`, element types are `string`/`regex`/`compound`, and every
`compound` element carries a non-nil nested compound. -/
def wfCompound : CompoundPattern → Bool
  | .mk op elems => decide (op = str "AND" ∨ op = str "OR") && wfElems elems

/-- List form of `wfCompound` over elements. -/
def wfElems : List PatternElement → Bool
  | [] => true
  | el :: rest => wfElem el && wfElems rest

/-- Well-formedness of one element. -/
def wfElem : PatternElement → Bool
  | .mk ty _ comp =>
    if ty = str "compound" then
      match comp with
      | some c => wfCompound c
      | none => false
    else decide (ty = str "string" ∨ ty = str "regex")
end

mutual
/-- Is the pattern text of every leaf element (an element whose type is not
`"compound"`) reachable from this compound non-empty?  (The leaf half of
C8's claimed invariant.) -/
def leavesNonempty : CompoundPattern → Bool
  | .mk _ elems => leavesElems elems

/-- List form of `leavesNonempty` over elements. -/
def leavesElems : List PatternElement → Bool
  | [] => true
  | el :: rest => leavesElem el && leavesElems rest

/-- Leaf non-emptiness of one element. -/
def leavesElem : PatternElement → Bool
  | .mk ty pat comp =>
    if ty = str "compound" then
      match comp with
      | some c => leavesNonempty c
      | none => true
    else decide (pat ≠ [])
end

/-- Is this evaluation error a regex compilation failure, possibly wrapped in
per-child `elementError` layers? -/
def isRegexCompileError : EvalError → Bool
  | .invalidRegexPattern _ => true
  | .elementError _ e => isRegexCompileError e
  | _ => false

namespace Esc

/-- The escape switch of `unquoteString` in the alternate config
implementation (src/unnamed/part_006): `\"`, `\\`, `\n`, `\t` decode to
quote, backslash, newline, tab; any other escaped character is kept
literally (backslash dropped). -/
def decodeEsc (c : Char) : Char :=
  if c = '"' then '"'
  else if c = '\\' then '\\'
  else if c = 'n' then '\n'
  else if c = 't' then '\t'
  else c

/-- The character loop of `unquoteString` over the span between the quotes:
a backslash starts an escape only when a further character follows inside
the span (the source condition `i+1 < len(s)-1`); a trailing lone
backslash is copied as-is. -/
def unquoteLoop : Str → Str
  | [] => []
  | '\\' :: c :: rest => decodeEsc c :: unquoteLoop rest
  | c :: rest => c :: unquoteLoop rest

/-- Model of `unquoteString` (src/unnamed/part_006): inputs not wrapped in
double quotes are returned unchanged; otherwise the quotes are dropped
and the escapes between them decoded.  The Go function's error result is
always `nil` and is omitted. -/
def unquoteString (s : Str) : Str :=
  if s.length < 2 ∨ s.head? ≠ some '"' ∨ s.getLast? ≠ some '"' then s
  else unquoteLoop ((s.drop 1).dropLast)

/-- Model of `parsePatternElement` from src/unnamed/part_006: identical to
the config.go variant except that only double-quoted values are
recognized, and they are unquoted with escape decoding via
`unquoteString`. -/
def parsePatternElement (pattern0 : Str) : Except ParseError PatternElement :=
  let pattern := trimSpace pattern0
  if pattern = [] then .error .emptyPatternElement
  else
    match indexOfChar pattern ':' with
    | some colonIndex =>
      if 0 < colonIndex ∧ colonIndex < pattern.length - 1 then
        let possibleType := toLowerStr (trimSpace (pattern.take colonIndex))
        if possibleType = str "string" ∨ possibleType = str "regex" then
          let patternValue := trimSpace (pattern.drop (colonIndex + 1))
          if patternValue = [] then .error .emptyPatternValue
          else
            let patternValue :=
              if 2 ≤ patternValue.length ∧ patternValue.head? = some '"' ∧
                  patternValue.getLast? = some '"' then
                unquoteString patternValue
              else patternValue
            .ok (.mk possibleType patternValue none)
        else .ok (.mk (str "string") pattern none)
      else .ok (.mk (str "string") pattern none)
    | none => .ok (.mk (str "string") pattern none)

end Esc

/-- The quoted-value escape rule in the spec's words, for comparison with
`Esc.unquoteString`: scanning the text between the quotes, a backslash
immediately followed by the quote character, another backslash, `n` or
`t` is decoded to the literal quote character, backslash, newline or tab
respectively, and any other backslash sequence is copied with the
backslash dropped and the following character kept literally. -/
def specEscapeDecode : Str → Str
  | [] => []
  | '\\' :: c :: rest =>
    (if c = '"' then '"'
     else if c = '\\' then '\\'
     else if c = 'n' then '\n'
     else if c = 't' then '\t'
     else c) :: specEscapeDecode rest
  | c :: rest => c :: specEscapeDecode rest

/-- Combined invariant of a parser-produced compound: well-formed
(`wfCompound`) and every reachable compound has at least one child
(`compoundsOK`). -/
def GoodC (c : CompoundPattern) : Prop :=
  wfCompound c = true ∧ compoundsOK c = true

/-- Combined invariant of the element accumulator of the parser loops. -/
def GoodEs (es : List PatternElement) : Prop :=
  wfElems es = true ∧ elemsOK es = true ∧ es ≠ []

/-- Claim C1: parsing respects precedence and grouping.  `"a AND b OR c"`
parses to an `OR` of (`AND` of `a`, `b`) and `c`, and `"a AND (b OR c)"`
parses to an `AND` of `a` and (`OR` of `b`, `c`), each bare leaf sitting
inside the conventional one-child `AND` wrapper produced by
`parsePrimary`. -/
theorem c1_precedence_grouping :
    ParseCompoundPattern (str "a AND b OR c") =
      .ok (.mk (str "OR")
        [.mk (str "compound") []
          (some (.mk (str "AND")
            [.mk (str "compound") []
              (some (.mk (str "AND") [.mk (str "string") (str "a") none])),
             .mk (str "compound") []
              (some (.mk (str "AND") [.mk (str "string") (str "b") none]))])),
         .mk (str "compound") []
          (some (.mk (str "AND") [.mk (str "string") (str "c") none]))]) ∧
    ParseCompoundPattern (str "a AND (b OR c)") =
      .ok (.mk (str "AND")
        [.mk (str "compound") []
          (some (.mk (str "AND") [.mk (str "string") (str "a") none])),
         .mk (str "compound") []
          (some (.mk (str "OR")
            [.mk (str "compound") []
              (some (.mk (str "AND") [.mk (str "string") (str "b") none])),
             .mk (str "compound") []
              (some (.mk (str "AND") [.mk (str "string") (str "c") none]))]))]) :=
  ⟨rfl, rfl⟩

/-- Claim C2: of the malformed inputs the spec lists, the empty string, the
unmatched `"(a AND b"`, the leading operator `"AND a"` and a leading
unmatched `")"` do produce errors — but the trailing-operator input
`"a AND"` and a trailing unmatched `")"` parse successfully: the
tokenizer's end-of-input operator checks are dead code, so the trailing
`AND` becomes a `PATTERN` token, and `parseTokens` silently discards
unconsumed trailing tokens. -/
theorem c2_malformed_inputs :
    ParseCompoundPattern (str "") = .error .emptyPattern ∧
    ParseCompoundPattern (str "(a AND b") = .error .expectedClosingParen ∧
    ParseCompoundPattern (str "AND a") = .error (.unexpectedTokenType (str "AND")) ∧
    ParseCompoundPattern (str ")a") = .error (.unexpectedTokenType (str "RPAREN")) ∧
    ParseCompoundPattern (str "a AND") =
      .ok (.mk (str "AND") [.mk (str "string") (str "a") none]) ∧
    ParseCompoundPattern (str "a)") =
      .ok (.mk (str "AND") [.mk (str "string") (str "a") none]) :=
  ⟨rfl, rfl, rfl, rfl, rfl, rfl⟩

/-- Claim C6, counterexample: tokenizing `string:'breaking news'` emits a
single `PATTERN` token, but its text value does include the surrounding
quote pair — the quote characters are still present in the token. -/
theorem c6_token_keeps_quotes :
    tokenizePattern (str "string:'breaking news'") =
      [{ typ := str "PATTERN", value := str "string:'breaking news'" }] ∧
    '\'' ∈ str "string:'breaking news'" :=
  ⟨rfl, by decide⟩

/-- Claim C6, amended: inside a quoted span operators, parentheses and
whitespace lose their special meaning and the whole span is scanned into
one `PATTERN` token, but the token text retains the quote pair; the
quotes are stripped only later, by `parsePatternElement`, and only for
type-prefixed leaf values. -/
theorem c6_quoting_amended :
    tokenizePattern (str "string:'breaking news'") =
      [{ typ := str "PATTERN", value := str "string:'breaking news'" }] ∧
    tokenizePattern (str "'a AND (b)'") =
      [{ typ := str "PATTERN", value := str "'a AND (b)'" }] ∧
    parsePatternElement (str "string:'breaking news'") =
      .ok (.mk (str "string") (str "breaking news") none) ∧
    '\'' ∉ str "breaking news" :=
  ⟨rfl, rfl, rfl, by decide⟩

/-- Claim C7, counterexample: in `"a AND(b)"` the `AND` is adjacent to a
following parenthesis — a token boundary by the claim — yet it is not
recognized as an operator: it is emitted as a `PATTERN` token and no
`AND` operator token appears. -/
theorem c7_and_before_paren_not_operator :
    tokenizePattern (str "a AND(b)") =
      [{ typ := str "PATTERN", value := str "a" },
       { typ := str "PATTERN", value := str "AND" },
       { typ := str "LPAREN", value := str "(" },
       { typ := str "PATTERN", value := str "b" },
       { typ := str "RPAREN", value := str ")" }] ∧
    { typ := str "AND", value := str "AND" } ∉ tokenizePattern (str "a AND(b)") :=
  ⟨rfl, by decide⟩

/-- Claim C7, amended: `AND`/`OR` are recognized as operator tokens exactly
when immediately followed by a space character at the scan position: with
a following space they are operators even after a parenthesis
(`"(a)AND b"`) or glued to the end of a word (`"xAND y"`); followed by a
parenthesis (`"a AND(b)"`) or by end of input (`"a AND"`) they are
scanned as pattern text instead; `"Android news"` is a single leaf. -/
theorem c7_operator_recognition_amended :
    tokenizePattern (str "a AND b") =
      [{ typ := str "PATTERN", value := str "a" },
       { typ := str "AND", value := str "AND" },
       { typ := str "PATTERN", value := str "b" }] ∧
    tokenizePattern (str "(a)AND b") =
      [{ typ := str "LPAREN", value := str "(" },
       { typ := str "PATTERN", value := str "a" },
       { typ := str "RPAREN", value := str ")" },
       { typ := str "AND", value := str "AND" },
       { typ := str "PATTERN", value := str "b" }] ∧
    tokenizePattern (str "xAND y") =
      [{ typ := str "PATTERN", value := str "x" },
       { typ := str "AND", value := str "AND" },
       { typ := str "PATTERN", value := str "y" }] ∧
    tokenizePattern (str "a AND(b)") =
      [{ typ := str "PATTERN", value := str "a" },
       { typ := str "PATTERN", value := str "AND" },
       { typ := str "LPAREN", value := str "(" },
       { typ := str "PATTERN", value := str "b" },
       { typ := str "RPAREN", value := str ")" }] ∧
    tokenizePattern (str "a AND") =
      [{ typ := str "PATTERN", value := str "a" },
       { typ := str "PATTERN", value := str "AND" }] ∧
    tokenizePattern (str "Android news") =
      [{ typ := str "PATTERN", value := str "Android news" }] :=
  ⟨rfl, rfl, rfl, rfl, rfl, rfl⟩

/-- Every element produced by a successful `parsePatternElement` is a leaf:
its type is `string` or `regex` and its `Compound` pointer is nil. -/
theorem parsePatternElement_shape (s : Str) (el : PatternElement)
    (h : parsePatternElement s = .ok el) :
    (el.typ = str "string" ∨ el.typ = str "regex") ∧ el.compound = none := by
  simp only [parsePatternElement] at h
  repeat' split at h
  all_goals cases h
  all_goals simp_all [PatternElement.typ, PatternElement.compound]

theorem wfElems_append (a b : List PatternElement) :
    wfElems (a ++ b) = (wfElems a && wfElems b) := by
  induction a with
  | nil => simp [wfElems]
  | cons el rest ih => simp [wfElems, ih, Bool.and_assoc]

theorem elemsOK_append (a b : List PatternElement) :
    elemsOK (a ++ b) = (elemsOK a && elemsOK b) := by
  induction a with
  | nil => simp [elemsOK]
  | cons el rest ih => simp [elemsOK, ih, Bool.and_assoc]

theorem goodC_single (el : PatternElement) (hty : el.typ = str "string" ∨ el.typ = str "regex")
    (hcomp : el.compound = none) : GoodC (.mk (str "AND") [el]) := by
  obtain ⟨ty, pat, comp⟩ := el
  simp [PatternElement.typ, PatternElement.compound] at hty hcomp
  subst hcomp
  constructor
  · simp [wfCompound, wfElems, wfElem]
    rcases hty with hty | hty <;> subst hty <;> simp [str]
  · simp [compoundsOK, elemsOK, elemOK]

theorem goodEs_wrap (c : CompoundPattern) (hc : GoodC c) :
    GoodEs [PatternElement.mk (str "compound") [] (some c)] := by
  refine ⟨?_, ?_, by simp⟩
  · simp [wfElems, wfElem, hc.1, str]
  · simp [elemsOK, elemOK, hc.2]

theorem goodEs_push (es : List PatternElement) (c : CompoundPattern)
    (hes : GoodEs es) (hc : GoodC c) :
    GoodEs (es ++ [PatternElement.mk (str "compound") [] (some c)]) := by
  obtain ⟨h1, h2, h3⟩ := hes
  refine ⟨?_, ?_, by simp⟩
  · simp [wfElems_append, h1, wfElems, wfElem, hc.1, str]
  · simp [elemsOK_append, h2, elemsOK, elemOK, hc.2]

theorem goodC_of_goodEs (op : Str) (hop : op = str "AND" ∨ op = str "OR")
    (es : List PatternElement) (hes : GoodEs es) : GoodC (.mk op es) := by
  constructor
  · simp [wfCompound, hes.1, hop]
  · simp [compoundsOK, hes.2.1, hes.2.2]

def ParserGood (fuel : Nat) : Prop :=
  (∀ tokens pos c p, parsePrimary fuel tokens pos = .ok (c, p) → GoodC c) ∧
  (∀ tokens pos c p, parseAndExpression fuel tokens pos = .ok (c, p) → GoodC c) ∧
  (∀ tokens pos c p, parseOrExpression fuel tokens pos = .ok (c, p) → GoodC c) ∧
  (∀ tokens pos es es2 p, GoodEs es → parseAndLoop fuel tokens pos es = .ok (es2, p) →
    GoodEs es2) ∧
  (∀ tokens pos es es2 p, GoodEs es → parseOrLoop fuel tokens pos es = .ok (es2, p) →
    GoodEs es2)

/-- The parser invariants hold at every fuel, by induction on fuel. -/
theorem parserGood : ∀ fuel, ParserGood fuel := by
  intro fuel
  induction fuel with
  | zero =>
    refine ⟨?_, ?_, ?_, ?_, ?_⟩ <;> intro tokens pos <;>
      simp [parsePrimary, parseAndExpression, parseOrExpression, parseAndLoop, parseOrLoop]
  | succ fuel ih =>
    obtain ⟨ihP, ihA, ihO, ihAL, ihOL⟩ := ih
    refine ⟨?_, ?_, ?_, ?_, ?_⟩
    · intro tokens pos c p h
      unfold parsePrimary at h
      repeat' split at h
      all_goals first
        | (cases h <;> exact ihO _ _ _ _ (by assumption))
        | (cases h <;>
            exact goodC_single _ (parsePatternElement_shape _ _ (by assumption)).1
              (parsePatternElement_shape _ _ (by assumption)).2)
    · intro tokens pos c p h
      unfold parseAndExpression at h
      repeat' split at h
      all_goals first
        | (cases h <;> exact ihP _ _ _ _ (by assumption))
        | (cases h <;>
            exact goodC_of_goodEs _ (Or.inl rfl) _
              (ihAL _ _ _ _ _ (goodEs_wrap _ (ihP _ _ _ _ (by assumption))) (by assumption)))
    · intro tokens pos c p h
      unfold parseOrExpression at h
      repeat' split at h
      all_goals first
        | (cases h <;> exact ihA _ _ _ _ (by assumption))
        | (cases h <;>
            exact goodC_of_goodEs _ (Or.inr rfl) _
              (ihOL _ _ _ _ _ (goodEs_wrap _ (ihA _ _ _ _ (by assumption))) (by assumption)))
    · intro tokens pos es es2 p hes h
      unfold parseAndLoop at h
      repeat' split at h
      all_goals first
        | (cases h <;> exact hes)
        | exact ihAL _ _ _ _ _ (goodEs_push _ _ hes (ihP _ _ _ _ (by assumption))) h
    · intro tokens pos es es2 p hes h
      unfold parseOrLoop at h
      repeat' split at h
      all_goals first
        | (cases h <;> exact hes)
        | exact ihOL _ _ _ _ _ (goodEs_push _ _ hes (ihA _ _ _ _ (by assumption))) h

/-- Every tree returned by a successful `ParseCompoundPattern` is
well-formed and all its compounds have at least one child. -/
theorem parseCompoundPattern_good (pattern : Str) (tree : CompoundPattern)
    (h : ParseCompoundPattern pattern = .ok tree) : GoodC tree := by
  simp only [ParseCompoundPattern, parseTokens] at h
  repeat' split at h
  all_goals cases h
  exact (parserGood _).2.2.1 _ _ _ _ (by assumption)

/-- When no element errors, the evaluation loop returns every element's
verdict in order and the concatenation, in element order, of every
element's matches — regardless of the individual verdicts. -/
theorem evalLoop_ok (content : Str) (elems : List PatternElement) :
    ∀ i, (∀ el ∈ elems, (evaluatePatternElement el content).2.2 = none) →
    evalPatternsLoop elems content i =
      .ok (elems.map (fun el => (evaluatePatternElement el content).1),
           (elems.map (fun el => (evaluatePatternElement el content).2.1)).flatten) := by
  induction elems with
  | nil => intro i _; simp [evalPatternsLoop]
  | cons el rest ih =>
    intro i hnone
    have h0 := hnone el (List.mem_cons_self el rest)
    rcases hres : evaluatePatternElement el content with ⟨found, ms, err⟩
    rw [hres] at h0
    simp only at h0
    subst h0
    simp [evalPatternsLoop, hres, ih (i + 1) (fun el2 hel2 => hnone el2 (List.mem_cons_of_mem el hel2))]

/-- When the first `i` elements evaluate without error and element `i`
fails with `e`, the evaluation loop started at index `k` aborts with `e`
wrapped at 1-based index `k + i + 1`. -/
theorem evalLoop_err_at (content : Str) (elems : List PatternElement) :
    ∀ k i e el, elems.get? i = some el →
    (∀ j el2, j < i → elems.get? j = some el2 →
      (evaluatePatternElement el2 content).2.2 = none) →
    (evaluatePatternElement el content).2.2 = some e →
    evalPatternsLoop elems content k = .error (k + i + 1, e) := by
  induction elems with
  | nil => intro k i e el hget; simp at hget
  | cons el0 rest ih =>
    intro k i e el hget hprev herr
    cases i with
    | zero =>
      rw [show el = el0 by simpa using hget.symm] at herr
      rcases hres : evaluatePatternElement el0 content with ⟨found, ms, err⟩
      rw [hres] at herr
      simp only at herr
      subst herr
      simp [evalPatternsLoop, hres]
    | succ i =>
      have h0 := hprev 0 el0 (Nat.succ_pos i) rfl
      rcases hres : evaluatePatternElement el0 content with ⟨found, ms, err⟩
      rw [hres] at h0
      simp only at h0
      subst h0
      have hrec := ih (k + 1) i e el (by simpa using hget)
        (fun j el2 hj hg => hprev (j + 1) el2 (Nat.succ_lt_succ hj) (by simpa using hg)) herr
      simp only [evalPatternsLoop, hres]
      rw [show k + (i + 1) + 1 = k + 1 + i + 1 by omega, hrec]

mutual
/-- On a well-formed tree the evaluator can only fail with a (possibly
`elementError`-wrapped) regex compilation error. -/
theorem evalCompound_regexErr : ∀ (c : CompoundPattern) (content : Str) (b : Bool)
    (ms : List Str) (e : EvalError), wfCompound c = true →
    EvaluateCompoundPattern (some c) content = (b, ms, some e) →
    isRegexCompileError e = true
  | .mk op elems, content, b, ms, e => by
    intro hwf heval
    simp only [wfCompound, Bool.and_eq_true, decide_eq_true_eq] at hwf
    simp only [EvaluateCompoundPattern] at heval
    rcases hloop : evalPatternsLoop elems content 0 with ⟨idx, e2⟩ | ⟨results, allMs⟩ <;>
      rw [hloop] at heval
    · have he : e = .elementError idx e2 := by simp at heval; tauto
      subst he
      simp only [isRegexCompileError]
      exact evalElems_regexErr elems content 0 idx e2 hwf.2 hloop
    · rcases hwf.1 with hop | hop <;> subst hop <;> dsimp only at heval
      · rw [if_pos (show toUpperStr (str "AND") = str "AND" by decide)] at heval
        simp at heval
      · rw [if_neg (show ¬toUpperStr (str "OR") = str "AND" by decide),
          if_pos (show toUpperStr (str "OR") = str "OR" by decide)] at heval
        simp at heval
termination_by structural c _ _ _ _ => c

/-- List form of `evalCompound_regexErr` over the evaluation loop. -/
theorem evalElems_regexErr : ∀ (elems : List PatternElement) (content : Str) (i j : Nat)
    (e : EvalError), wfElems elems = true →
    evalPatternsLoop elems content i = .error (j, e) →
    isRegexCompileError e = true
  | [], content, i, j, e => by
    intro _ hloop
    simp [evalPatternsLoop] at hloop
  | el :: rest, content, i, j, e => by
    intro hwf hloop
    simp only [wfElems, Bool.and_eq_true] at hwf
    simp only [evalPatternsLoop] at hloop
    rcases hres : evaluatePatternElement el content with ⟨f, m, err⟩
    rw [hres] at hloop
    cases err with
    | some e2 =>
      have he : e = e2 := by simp at hloop; tauto
      subst he
      exact evalElem_regexErr el content f m e hwf.1 hres
    | none =>
      rcases hloop2 : evalPatternsLoop rest content (i + 1) with ⟨j2, e3⟩ | ok2 <;>
        rw [hloop2] at hloop
      · have he : e = e3 := by simp at hloop; tauto
        subst he
        exact evalElems_regexErr rest content (i + 1) j2 e hwf.2 hloop2
      · rcases ok2 with ⟨results, restMs⟩
        simp at hloop
termination_by structural elems _ _ _ _ => elems

/-- Element form of `evalCompound_regexErr`. -/
theorem evalElem_regexErr : ∀ (el : PatternElement) (content : Str) (b : Bool)
    (ms : List Str) (e : EvalError), wfElem el = true →
    evaluatePatternElement el content = (b, ms, some e) →
    isRegexCompileError e = true
  | .mk ty pat comp, content, b, ms, e => by
    intro hwf heval
    cases comp with
    | none =>
      simp only [wfElem] at hwf
      simp only [evaluatePatternElement] at heval
      repeat' split at heval
      all_goals first
        | (simp_all [isRegexCompileError]; done)
        | (simp at heval; rcases heval with ⟨_, _, hee⟩; rw [← hee]; rfl)
    | some c =>
      simp only [evaluatePatternElement] at heval
      repeat' split at heval
      all_goals first
        | (simp_all [isRegexCompileError, wfElem]; done)
        | (simp at heval; rcases heval with ⟨_, _, hee⟩; rw [← hee]; rfl)
        | exact evalCompound_regexErr c content b ms e (by simp_all [wfElem]) heval
termination_by structural el _ _ _ _ => el
end

/-- The character loop of `Esc.unquoteString` implements exactly the
spec-worded escape rule. -/
theorem unquoteLoop_eq_spec : ∀ l, Esc.unquoteLoop l = specEscapeDecode l := by
  intro l
  induction l using Esc.unquoteLoop.induct <;>
    simp_all [Esc.unquoteLoop, specEscapeDecode, Esc.decodeEsc]

/-- Applied to a double-quoted span, `Esc.unquoteString` strips the quote
pair and decodes the escapes between them by the spec-worded rule. -/
theorem unquote_wrapped (inner : Str) :
    Esc.unquoteString ('"' :: inner ++ ['"']) = specEscapeDecode inner := by
  unfold Esc.unquoteString
  rw [if_neg]
  · rw [show ('"' :: inner ++ ['"']).drop 1 = inner ++ ['"'] from rfl,
      List.dropLast_concat]
    exact unquoteLoop_eq_spec inner
  · push_neg
    refine ⟨by simp, rfl, ?_⟩
    rw [show '"' :: inner ++ ['"'] = ('"' :: inner) ++ ['"'] from rfl,
      List.getLast?_concat]

/-- Claim C3: for every `Compound` node whose operator upper-cases to
`"AND"` (resp. `"OR"`) and whose children all evaluate without error,
`EvaluateCompoundPattern` evaluates every child, returns as verdict the
boolean AND (resp. OR) fold of all child verdicts, and returns as match
list the concatenation, in child order, of every child's own match list
regardless of that child's individual verdict; in particular
`And(Leaf "foo", Leaf "bar")` against content containing `foo` but not
`bar` yields `found = false` and `matches = ["foo"]`. -/
theorem c3_compound_evaluation :
    (∀ (op : Str) (elems : List PatternElement) (content : Str),
      (∀ el ∈ elems, (evaluatePatternElement el content).2.2 = none) →
      (toUpperStr op = str "AND" →
        EvaluateCompoundPattern (some (.mk op elems)) content =
          (allTrue (elems.map fun el => (evaluatePatternElement el content).1),
           (elems.map fun el => (evaluatePatternElement el content).2.1).flatten, none)) ∧
      (toUpperStr op = str "OR" →
        EvaluateCompoundPattern (some (.mk op elems)) content =
          (anyTrue (elems.map fun el => (evaluatePatternElement el content).1),
           (elems.map fun el => (evaluatePatternElement el content).2.1).flatten, none))) ∧
    EvaluateCompoundPattern
        (some (.mk (str "AND")
          [.mk (str "string") (str "foo") none, .mk (str "string") (str "bar") none]))
        (str "a foo b") =
      (false, [str "foo"], none) := by
  refine ⟨?_, by decide⟩
  intro op elems content hnone
  have hloop := evalLoop_ok content elems 0 hnone
  refine ⟨fun hop => ?_, fun hop => ?_⟩ <;>
    simp only [EvaluateCompoundPattern, hloop, hop] <;>
    simp [show ¬(str "OR" = str "AND") by decide]

/-- Witness for C3: the general theorem applied to a one-child `OR`
compound on concrete content. -/
theorem c3_witness :
    EvaluateCompoundPattern (some (.mk (str "OR") [.mk (str "string") (str "foo") none]))
      (str "x foo") = (true, [str "foo"], none) := by
  have h := (c3_compound_evaluation.1 (str "OR") [.mk (str "string") (str "foo") none]
    (str "x foo") (by decide)).2 (by decide)
  rw [h]
  decide

/-- Claim C10: when the first failing child is at 0-based index `i` (all
earlier children evaluate without error), `EvaluateCompoundPattern`
aborts and returns the child's error wrapped with the 1-based index
`i + 1`, together with `found = false` and a nil match list — matches
already collected from earlier siblings are discarded. -/
theorem c10_error_propagation :
    ∀ (op : Str) (elems : List PatternElement) (content : Str) (i : Nat) (e : EvalError)
      (el : PatternElement), elems.get? i = some el →
    (∀ j el2, j < i → elems.get? j = some el2 →
      (evaluatePatternElement el2 content).2.2 = none) →
    (evaluatePatternElement el content).2.2 = some e →
    EvaluateCompoundPattern (some (.mk op elems)) content =
      (false, [], some (.elementError (i + 1) e)) := by
  intro op elems content i e el hget hprev herr
  have h := evalLoop_err_at content elems 0 i e el hget hprev herr
  rw [show 0 + i + 1 = i + 1 by omega] at h
  simp only [EvaluateCompoundPattern, h]

/-- Witness for C10: a matching `string` leaf followed by an invalid
`regex` leaf; the earlier sibling's match is discarded and the error is
wrapped with index 2. -/
theorem c10_witness :
    EvaluateCompoundPattern (some (.mk (str "AND")
      [.mk (str "string") (str "foo") none, .mk (str "regex") (str "[") none]))
      (str "a foo b") =
      (false, [], some (.elementError 2 (.invalidRegexPattern (str "[")))) := by
  have h := c10_error_propagation (str "AND")
    [.mk (str "string") (str "foo") none, .mk (str "regex") (str "[") none]
    (str "a foo b") 1 (.invalidRegexPattern (str "["))
    (.mk (str "regex") (str "[") none) rfl
    (fun j el2 hj hg => by
      have hj0 : j = 0 := by omega
      subst hj0
      cases hg
      decide)
    (by decide)
  exact h

/-- Claim C4: for every regex leaf, evaluation compiles the pattern
(compile failure yields the invalid-pattern error), the verdict is true
iff the match count is positive, and the reported matches are exactly
`Re.findAllString` — all non-overlapping matches scanned left to right;
on `[0-9]+\.[0-9]{2}` against `"Price: $19.99 and $5.00"` this yields
`found = true` and matches `["19.99", "5.00"]` in that order. -/
theorem c4_regex_leaf_semantics :
    (∀ (pat content : Str), Re.compile pat = none →
      evaluatePatternElement (.mk (str "regex") pat none) content =
        (false, [], some (.invalidRegexPattern pat))) ∧
    (∀ (pat content : Str) (re : Re.Regex), Re.compile pat = some re →
      evaluatePatternElement (.mk (str "regex") pat none) content =
        (decide (0 < (Re.findAllString re content).length),
         Re.findAllString re content, none)) ∧
    evaluatePatternElement (.mk (str "regex") (str "[0-9]+\\.[0-9]{2}") none)
        (str "Price: $19.99 and $5.00") =
      (true, [str "19.99", str "5.00"], none) := by
  refine ⟨?_, ?_, by decide⟩ <;> intro pat content <;>
    [skip; intro re] <;> intro hc <;>
    simp [evaluatePatternElement, hc, show ¬(str "regex" = str "string") by decide]

/-- Witness for C4: the compile-failure branch applied to the invalid
pattern `[`. -/
theorem c4_witness :
    evaluatePatternElement (.mk (str "regex") (str "[") none) (str "x") =
      (false, [], some (.invalidRegexPattern (str "["))) :=
  c4_regex_leaf_semantics.1 (str "[") (str "x") rfl

/-- Claim C5: inside a double-quoted leaf value, `Esc.unquoteString`
decodes `\"`, `\\`, `\n`, `\t` to quote, backslash, newline and tab,
and any other backslash sequence is copied with the backslash dropped
and the following character kept, exactly as the spec words it
(`specEscapeDecode`); parsing the leaf `string:"a\"b"` with the
escape-decoding implementation yields the pattern `a"b`. -/
theorem c5_escape_decoding :
    (∀ inner : Str, Esc.unquoteString ('"' :: inner ++ ['"']) = specEscapeDecode inner) ∧
    Esc.parsePatternElement (str "string:\"a\\\"b\"") =
      .ok (.mk (str "string") (str "a\"b") none) :=
  ⟨unquote_wrapped, rfl⟩

/-- Claim C8, counterexample: `string:""` parses successfully, yet the
resulting tree contains a leaf with an empty pattern — the pattern-value
emptiness check runs before quote stripping, so a quoted empty value
slips through. -/
theorem c8_empty_leaf_counterexample :
    ParseCompoundPattern (str "string:\"\"") =
      .ok (.mk (str "AND") [.mk (str "string") [] none]) ∧
    leavesNonempty (.mk (str "AND") [.mk (str "string") [] none]) = false :=
  ⟨rfl, by decide⟩

/-- Claim C8, amended: every `Compound` node of a successfully parsed tree
has at least one child, but a leaf's pattern can be empty: parsing
`string:""` succeeds with an empty leaf pattern because the emptiness
check precedes quote stripping. -/
theorem c8_invariants_amended :
    (∀ (pattern : Str) (tree : CompoundPattern),
      ParseCompoundPattern pattern = .ok tree → compoundsOK tree = true) ∧
    ParseCompoundPattern (str "string:\"\"") =
      .ok (.mk (str "AND") [.mk (str "string") [] none]) :=
  ⟨fun pattern tree h => (parseCompoundPattern_good pattern tree h).2, rfl⟩

/-- Witness for C8: the invariant instantiated on the parse of
`"a AND b"`. -/
theorem c8_witness :
    compoundsOK (.mk (str "AND")
      [.mk (str "compound") []
        (some (.mk (str "AND") [.mk (str "string") (str "a") none])),
       .mk (str "compound") []
        (some (.mk (str "AND") [.mk (str "string") (str "b") none]))]) = true :=
  c8_invariants_amended.1 (str "a AND b") _ rfl

/-- Claim C9: on any tree returned by a successful `ParseCompoundPattern`,
evaluation never reaches the defensive error branches (nil compound,
unsupported operator, nil nested compound, unsupported element type):
any error it returns is a regex compilation failure, possibly wrapped in
per-child `elementError` layers. -/
theorem c9_eval_errors_only_regex :
    ∀ (pattern : Str) (tree : CompoundPattern) (content : Str) (b : Bool)
      (ms : List Str) (e : EvalError),
    ParseCompoundPattern pattern = .ok tree →
    EvaluateCompoundPattern (some tree) content = (b, ms, some e) →
    isRegexCompileError e = true :=
  fun pattern tree content b ms e hp he =>
    evalCompound_regexErr tree content b ms e (parseCompoundPattern_good pattern tree hp).1 he

/-- Witness for C9: the parse of `regex:[` evaluates to a wrapped regex
compilation error, which the theorem certifies as such. -/
theorem c9_witness :
    isRegexCompileError (.elementError 1 (.invalidRegexPattern (str "["))) = true :=
  c9_eval_errors_only_regex (str "regex:[")
    (.mk (str "AND") [.mk (str "regex") (str "[") none]) (str "x") false []
    (.elementError 1 (.invalidRegexPattern (str "["))) rfl (by decide)
